import Mathlib

/-!
Shallow embedding of `examples/bank_example/quix_platform_version/producer.py`.

The script draws random fields per iteration (`randint`, `choice`, `random`,
`uuid.uuid4`), builds a purchase-event record, serializes it through an
external serializer bound to a topic, and produces it through an external
producer client obtained via `with app.get_producer() as producer:`.

Randomness is embedded as an oracle of per-iteration draw streams; the
external library calls (`topic.serialize`, `producer.produce`, the
serializer's `extra_headers`) are opaque parameters of the environment, as
the repository snapshot contains only the script.  The observable behaviour
of a run is a trace of actions plus the final outcome (`Except`), with the
`with`-statement embedded as: the producer is acquired before the loop and
released after it on both the normal and the error path.
-/

namespace BankProducer

/-- One synthetic purchase event, the `value` dict built each iteration. -/
structure PurchaseEvent where
  account_id : String
  account_class : String
  transaction_amount : Int
  transaction_source : String
  Timestamp : Nat
deriving DecidableEq

/-- The fixed retailer list (`retailers` in the script). -/
def retailers : List String :=
  ["Billy Bob's Shop", "Tasty Pete's Burgers", "Mal-Wart",
   "Bikey Bikes", "Board Game Grove", "Food Emporium"]

/-- Per-iteration random draw streams: one stream per random call site of the
loop body.  `accounts`/`amounts` feed the two `randint` calls (as raw
naturals reduced mod the range size), `picks` feeds `choice`, `uuids` is the
token returned by `str(uuid.uuid4())`, `sleeps` feeds `random()` as a raw
53-bit natural, `times` is `time.time_ns()`. -/
structure Oracle where
  accounts : Nat → Nat
  amounts : Nat → Nat
  picks : Nat → Nat
  uuids : Nat → String
  sleeps : Nat → Nat
  times : Nat → Nat

/-- Python `randint(a, b)`: a uniform draw from the closed interval `[a, b]`,
embedded as `a` plus the raw draw reduced mod the interval size. -/
def randintVal (a b : Int) (draw : Nat) : Int :=
  a + (draw % (b - a + 1).toNat : Nat)

/-- The `account = randint(0, 10)` draw of iteration `k` (value in `[0, 10]`). -/
def accountAt (o : Oracle) (k : Nat) : Nat :=
  o.accounts k % 11

/-- `account_id = f"A{'0'*(10-len(str(account)))}{account}"`. -/
def account_idOf (account : Nat) : String :=
  "A" ++ String.mk (List.replicate (10 - (Nat.repr account).length) '0')
      ++ Nat.repr account

/-- `"Gold" if account >= 8 else "Silver"`. -/
def account_classOf (account : Nat) : String :=
  if 8 ≤ account then "Gold" else "Silver"

/-- `transaction_amount = randint(-2500, -1)` at iteration `k`. -/
def amountAt (o : Oracle) (k : Nat) : Int :=
  randintVal (-2500) (-1) (o.amounts k)

/-- `transaction_source = choice(retailers)` at iteration `k`. -/
def sourceAt (o : Oracle) (k : Nat) : String :=
  retailers.getD (o.picks k % retailers.length) ""

/-- The `value` dict built at iteration `k`. -/
def genEvent (o : Oracle) (k : Nat) : PurchaseEvent :=
  { account_id := account_idOf (accountAt o k)
    account_class := account_classOf (accountAt o k)
    transaction_amount := amountAt o k
    transaction_source := sourceAt o k
    Timestamp := o.times k }

/-- Python dict update `d[k] = v` on an association list: replaces the first
binding of `k` in place, or appends a new binding; `{**d, k: v}` builds
exactly this dict. -/
def dictInsert : List (String × String) → String → String → List (String × String)
  | [], k, v => [(k, v)]
  | p :: rest, k, v => if p.1 = k then (k, v) :: rest else p :: dictInsert rest k v

/-- The opaque serialized envelope returned by `topic.serialize`. -/
structure Serialized where
  headers : List (String × String)
  key : String
  value : String
deriving DecidableEq

/-- The topic name `qts__purchase_events` the script registers and produces to. -/
def topicName : String := "qts__purchase_events"

/-- The run environment: the random oracle plus the opaque external
collaborators (the serializer's `extra_headers`, the fallible
`topic.serialize` and `producer.produce` calls). -/
structure Env where
  oracle : Oracle
  extraHeaders : List (String × String)
  serialize : String → PurchaseEvent → List (String × String) → Except String Serialized
  produce : String → List (String × String) → String → String → Except String Unit

/-- The event built at iteration `k` of a run. -/
def eventAt (env : Env) (k : Nat) : PurchaseEvent :=
  genEvent env.oracle k

/-- The headers argument of the `topic.serialize` call at iteration `k`:
`{**serializer.extra_headers, "uuid": str(uuid.uuid4())}`. -/
def headersAt (env : Env) (k : Nat) : List (String × String) :=
  dictInsert env.extraHeaders "uuid" (env.oracle.uuids k)

/-- The outcome of the `topic.serialize` call at iteration `k`, with
`key=account_id, value=value, headers=...` exactly as in the script. -/
def serializeAt (env : Env) (k : Nat) : Except String Serialized :=
  env.serialize (eventAt env k).account_id (eventAt env k) (headersAt env k)

/-- The outcome of iteration `k`'s externally visible calls: a serialization
failure short-circuits (the produce call is never reached), otherwise the
produce call's outcome decides. -/
def iterResult (env : Env) (k : Nat) : Except String Unit :=
  match serializeAt env k with
  | Except.error e => Except.error e
  | Except.ok s => env.produce topicName s.headers s.key s.value

/-- `sleep(random())`: Python's `random()` returns a 53-bit draw divided by
`2^53`, a value in `[0, 1)`. -/
def sleepValAt (env : Env) (k : Nat) : ℚ :=
  ((env.oracle.sleeps k % 2 ^ 53 : Nat) : ℚ) / (2 ^ 53 : ℚ)

/-- Observable actions of a run, in program order. -/
inductive Action where
  | acquire : Action
  | printEvt : PurchaseEvent → Action
  | serializeCall : String → PurchaseEvent → List (String × String) → Action
  | produceCall : String → List (String × String) → String → String → Action
  | sleep : ℚ → Action
  | release : Action
deriving DecidableEq

/-- `true` exactly on `Action.printEvt`. -/
def isPrint : Action → Bool
  | Action.printEvt _ => true
  | _ => false

/-- `true` exactly on `Action.serializeCall`. -/
def isSerialize : Action → Bool
  | Action.serializeCall _ _ _ => true
  | _ => false

/-- `true` exactly on `Action.produceCall`. -/
def isProduce : Action → Bool
  | Action.produceCall _ _ _ _ => true
  | _ => false

/-- `true` exactly on `Action.sleep`. -/
def isBodySleep : Action → Bool
  | Action.sleep _ => true
  | _ => false

/-- `true` exactly on `Action.acquire`. -/
def isAcquire : Action → Bool
  | Action.acquire => true
  | _ => false

/-- The actions of one loop-body iteration up to its first failure: the
`print`, then the serialize call; the produce call is reached only when
serialization succeeded (its arguments are the fields of the serialized
envelope, as in the script). -/
def iterActions (env : Env) (k : Nat) : List Action :=
  match serializeAt env k with
  | Except.error _ =>
      [Action.printEvt (eventAt env k),
       Action.serializeCall (eventAt env k).account_id (eventAt env k) (headersAt env k)]
  | Except.ok s =>
      [Action.printEvt (eventAt env k),
       Action.serializeCall (eventAt env k).account_id (eventAt env k) (headersAt env k),
       Action.produceCall topicName s.headers s.key s.value]

/-- `n` more iterations of the `while i < 10000` body starting at iteration
`k`: on a failure the raised error stops the loop at once; on success the
body ends with `i += 1; sleep(random())` and the loop continues. -/
def runIters (env : Env) : Nat → Nat → List Action × Except String Unit
  | _, 0 => ([], Except.ok ())
  | k, n + 1 =>
    match iterResult env k with
    | Except.error e => (iterActions env k, Except.error e)
    | Except.ok _ =>
        (iterActions env k
           ++ Action.sleep (sleepValAt env k) :: (runIters env (k + 1) n).1,
         (runIters env (k + 1) n).2)

/-- The loop bound: the literal `10000` of `while i < 10000`. -/
def loopBound : Nat := 10000

/-- The whole script run: `with app.get_producer() as producer:` acquires the
producer once before the loop and releases it after the loop on every exit
path (Python's `with` calls `__exit__` also when the body raises, and the
error then propagates unchanged). -/
def runScript (env : Env) : List Action × Except String Unit :=
  (Action.acquire :: (runIters env 0 loopBound).1 ++ [Action.release],
   (runIters env 0 loopBound).2)

/-- Reads a digit string back as a number, most significant digit first. -/
def digitsToNat (ds : List Char) : Nat :=
  ds.foldl (fun n c => n * 10 + (c.toNat - '0'.toNat)) 0

/-- `true` when, in the trace, no `sleep` action occurs after the last
`produceCall` action (the formalization of "the suspension occurs only
between iterations"). -/
def noSleepAfterLastProduce (tr : List Action) : Bool :=
  (tr.reverse.takeWhile (fun a => !(isProduce a))).all (fun a => !(isBodySleep a))

/-! ## Concrete environments for witnesses -/

/-- A concrete oracle: all raw draws `0`, uuid tokens pairwise distinct. -/
def oracle0 : Oracle :=
  { accounts := fun _ => 0
    amounts := fun _ => 0
    picks := fun _ => 0
    uuids := fun n => String.mk (List.replicate n 'u')
    sleeps := fun _ => 0
    times := fun _ => 0 }

/-- A trivial serialized envelope. -/
def serializedTriv : Serialized :=
  { headers := [], key := "k", value := "v" }

/-- A concrete environment whose external calls always succeed. -/
def envOk : Env :=
  { oracle := oracle0
    extraHeaders := []
    serialize := fun _ _ _ => Except.ok serializedTriv
    produce := fun _ _ _ _ => Except.ok () }

/-- A concrete environment whose produce call always fails with `"boom"`. -/
def envFail : Env :=
  { envOk with produce := fun _ _ _ _ => Except.error "boom" }

/-- `oracle0` with the account draw pinned at `9`. -/
def oracle9 : Oracle :=
  { oracle0 with accounts := fun _ => 9 }

/-- `oracle0` with the account draw pinned at `3`. -/
def oracle3 : Oracle :=
  { oracle0 with accounts := fun _ => 3 }

/-! ## Helper lemmas -/

theorem account_classOf_eq_gold (a : Nat) : account_classOf a = "Gold" ↔ 8 ≤ a := by
  unfold account_classOf
  by_cases h : 8 ≤ a
  · rw [if_pos h]; simp [h]
  · rw [if_neg h]
    constructor
    · intro hc; exact absurd hc (by decide)
    · intro hl; exact absurd hl h

theorem account_classOf_eq_silver (a : Nat) : account_classOf a = "Silver" ↔ a < 8 := by
  unfold account_classOf
  by_cases h : 8 ≤ a
  · rw [if_pos h]
    constructor
    · intro hc; exact absurd hc (by decide)
    · intro hl; omega
  · rw [if_neg h]
    constructor
    · intro _; omega
    · intro _; rfl

theorem account_id_shape_of_lt : ∀ a, a < 11 →
    ((account_idOf a).data.head? = some 'A'
    ∧ (account_idOf a).data.length = 11
    ∧ (account_idOf a).data.tail.all Char.isDigit = true
    ∧ digitsToNat (account_idOf a).data.tail = a) := by decide

theorem lookup_dictInsert_self (d : List (String × String)) (k v : String) :
    List.lookup k (dictInsert d k v) = some v := by
  induction d with
  | nil => simp [dictInsert, List.lookup]
  | cons p rest ih =>
    by_cases h : p.1 = k
    · simp [dictInsert, h, List.lookup]
    · have hb : (k == p.1) = false := beq_eq_false_iff_ne.mpr (Ne.symm h)
      simp [dictInsert, h, List.lookup, hb, ih]

theorem lookup_dictInsert_ne (d : List (String × String)) (k v k' : String)
    (hne : k' ≠ k) :
    List.lookup k' (dictInsert d k v) = List.lookup k' d := by
  have hb : (k' == k) = false := beq_eq_false_iff_ne.mpr hne
  induction d with
  | nil => simp [dictInsert, List.lookup, hb]
  | cons p rest ih =>
    by_cases h : p.1 = k
    · subst h
      simp [dictInsert, List.lookup, hb]
    · simp [dictInsert, h, List.lookup, ih]

/-! ## Claim theorems -/

/-- Claim C1: for every generated event, `account_class` is `"Gold"` iff the
account integer drawn for that event is `≥ 8`, and `"Silver"` otherwise;
accounts pinned at `9` yield `"Gold"`, pinned at `3` yield `"Silver"`, and
`account_class` is fully determined by the drawn integer across any two
oracles and iterations. -/
theorem account_class_determined (o o' : Oracle) (k k' : Nat) :
    ((genEvent o k).account_class = "Gold" ↔ 8 ≤ accountAt o k)
    ∧ ((genEvent o k).account_class = "Silver" ↔ accountAt o k < 8)
    ∧ (accountAt o k = 9 → (genEvent o k).account_class = "Gold")
    ∧ (accountAt o k = 3 → (genEvent o k).account_class = "Silver")
    ∧ (accountAt o k = accountAt o' k' →
        (genEvent o k).account_class = (genEvent o' k').account_class) := by
  refine ⟨account_classOf_eq_gold _, account_classOf_eq_silver _, ?_, ?_, ?_⟩
  · intro h
    exact (account_classOf_eq_gold _).2 (by omega)
  · intro h
    exact (account_classOf_eq_silver _).2 (by omega)
  · intro h
    show account_classOf (accountAt o k) = account_classOf (accountAt o' k')
    rw [h]

/-- Witness for C1: concrete oracles pinning the account draw at `9` and `3`. -/
theorem account_class_determined_witness :
    accountAt oracle9 0 = 9 ∧ (genEvent oracle9 0).account_class = "Gold"
    ∧ accountAt oracle3 0 = 3 ∧ (genEvent oracle3 0).account_class = "Silver" :=
  ⟨rfl, (account_class_determined oracle9 oracle9 0 0).2.2.1 rfl,
   rfl, (account_class_determined oracle3 oracle3 0 0).2.2.2.1 rfl⟩

/-- Claim C2: every generated event's `account_id` is the character `'A'`
followed by exactly 10 digit characters, the digits read back as the drawn
account integer, and that integer lies in `[0, 10]`. -/
theorem account_id_format (o : Oracle) (k : Nat) :
    (genEvent o k).account_id.data.head? = some 'A'
    ∧ (genEvent o k).account_id.data.length = 11
    ∧ (genEvent o k).account_id.data.tail.all Char.isDigit = true
    ∧ digitsToNat (genEvent o k).account_id.data.tail = accountAt o k
    ∧ accountAt o k ≤ 10 := by
  have hlt : accountAt o k < 11 := Nat.mod_lt _ (by decide)
  have h := account_id_shape_of_lt (accountAt o k) hlt
  exact ⟨h.1, h.2.1, h.2.2.1, h.2.2.2, by omega⟩

/-- Claim C7: every generated event's `transaction_amount` lies in the closed
interval `[-2500, -1]`, hence is strictly negative. -/
theorem transaction_amount_range (o : Oracle) (k : Nat) :
    -2500 ≤ (genEvent o k).transaction_amount
    ∧ (genEvent o k).transaction_amount ≤ -1
    ∧ (genEvent o k).transaction_amount < 0 := by
  have h : (genEvent o k).transaction_amount
      = -2500 + ((o.amounts k % 2500 : Nat) : Int) := rfl
  have hm : o.amounts k % 2500 < 2500 := Nat.mod_lt _ (by decide)
  refine ⟨?_, ?_, ?_⟩ <;> rw [h] <;> omega

/-- Claim C10: the `"uuid"` entry of the header mapping passed to
serialization always equals the per-message token, even when the
serializer's extra headers themselves bind `"uuid"`: the fresh token
overrides any same-named entry in the `{**extra, "uuid": token}` merge. -/
theorem uuid_header_overrides (env : Env) (k : Nat) :
    List.lookup "uuid" (headersAt env k) = some (env.oracle.uuids k)
    ∧ ∀ (extra : List (String × String)) (u : String),
        List.lookup "uuid" (dictInsert extra "uuid" u) = some u :=
  ⟨lookup_dictInsert_self _ _ _, fun extra u => lookup_dictInsert_self extra _ u⟩

/-- Claim C4: the headers handed to every serialize call are the union of
the serializer's extra headers and one fresh `"uuid"` token for that
message (the `"uuid"` entry is the token, every other key is looked up in
the extra headers, and the serialize action recorded in the trace carries
exactly that merged mapping), and with the uuid stream injective — the model
of `uuid4` as a unique-token generator — consecutive messages carry
different `"uuid"` header values. -/
theorem serialize_headers_union_fresh (env : Env) (k : Nat)
    (h : Function.Injective env.oracle.uuids) :
    List.lookup "uuid" (headersAt env k) = some (env.oracle.uuids k)
    ∧ (∀ key, key ≠ "uuid" →
        List.lookup key (headersAt env k) = List.lookup key env.extraHeaders)
    ∧ (∀ key e hs, Action.serializeCall key e hs ∈ iterActions env k →
        hs = headersAt env k)
    ∧ List.lookup "uuid" (headersAt env k) ≠ List.lookup "uuid" (headersAt env (k + 1)) := by
  refine ⟨lookup_dictInsert_self _ _ _,
    fun key hk => lookup_dictInsert_ne _ _ _ _ hk, ?_, ?_⟩
  · intro key e hs hmem
    cases hse : serializeAt env k <;> simp [iterActions, hse] at hmem <;>
      exact hmem.2.2
  · simp only [headersAt]
    rw [lookup_dictInsert_self, lookup_dictInsert_self]
    intro hc
    have h2 : env.oracle.uuids k = env.oracle.uuids (k + 1) := by
      simpa using hc
    have h3 := h h2
    omega

/-- Witness for C4: the concrete environment `envOk`, whose uuid stream
`n ↦ "uu…u"` (length `n`) is injective. -/
theorem serialize_headers_union_fresh_witness :
    List.lookup "uuid" (headersAt envOk 0) = some (envOk.oracle.uuids 0)
    ∧ (∀ key, key ≠ "uuid" →
        List.lookup key (headersAt envOk 0) = List.lookup key envOk.extraHeaders)
    ∧ (∀ key e hs, Action.serializeCall key e hs ∈ iterActions envOk 0 →
        hs = headersAt envOk 0)
    ∧ List.lookup "uuid" (headersAt envOk 0) ≠ List.lookup "uuid" (headersAt envOk (0 + 1)) :=
  serialize_headers_union_fresh envOk 0 (by
    intro a b hab
    have h2 : List.replicate a 'u' = List.replicate b 'u' := by
      simpa [envOk, oracle0] using congrArg String.data hab
    simpa using congrArg List.length h2)

/-! ## Trace lemmas for the loop -/

theorem iterActions_counts (env : Env) (k : Nat) :
    (iterActions env k).countP isPrint = 1
    ∧ (iterActions env k).countP isSerialize = 1
    ∧ (iterActions env k).countP isAcquire = 0
    ∧ (iterActions env k).countP isBodySleep = 0 := by
  cases hse : serializeAt env k <;>
    simp [iterActions, hse, List.countP_cons, isPrint, isSerialize, isAcquire, isBodySleep]

theorem iterActions_produce_count_ok (env : Env) (k : Nat) (s : Serialized)
    (hse : serializeAt env k = Except.ok s) :
    (iterActions env k).countP isProduce = 1 := by
  simp [iterActions, hse, List.countP_cons, isProduce]

theorem runIters_ok (env : Env) (h : ∀ j, iterResult env j = Except.ok ()) :
    ∀ n k, (runIters env k n).2 = Except.ok ()
      ∧ (runIters env k n).1.countP isPrint = n
      ∧ (runIters env k n).1.countP isProduce = n
      ∧ (runIters env k n).1.countP isBodySleep = n := by
  intro n
  induction n with
  | zero => intro k; simp [runIters]
  | succ n ih =>
    intro k
    have hk := h k
    obtain ⟨s, hs⟩ : ∃ s, serializeAt env k = Except.ok s := by
      cases hse : serializeAt env k with
      | error e => simp [iterResult, hse] at hk
      | ok s => exact ⟨s, rfl⟩
    have hc := iterActions_counts env k
    have hp := iterActions_produce_count_ok env k s hs
    have hrec := ih (k + 1)
    refine ⟨?_, ?_, ?_, ?_⟩
    · simp [runIters, hk, hrec.1]
    · simp [runIters, hk, List.countP_append, List.countP_cons,
        hc.1, hrec.2.1, isPrint] <;> omega
    · simp [runIters, hk, List.countP_append, List.countP_cons,
        hp, hrec.2.2.1, isProduce] <;> omega
    · simp [runIters, hk, List.countP_append, List.countP_cons,
        hc.2.2.2, hrec.2.2.2, isBodySleep]

theorem runIters_no_acquire (env : Env) :
    ∀ n k, (runIters env k n).1.countP isAcquire = 0 := by
  intro n
  induction n with
  | zero => intro k; simp [runIters]
  | succ n ih =>
    intro k
    cases hik : iterResult env k with
    | error e => simp [runIters, hik, (iterActions_counts env k).2.2.1]
    | ok u =>
      cases u
      simp [runIters, hik, List.countP_append, List.countP_cons,
        (iterActions_counts env k).2.2.1, ih (k + 1), isAcquire]

theorem runIters_fail (env : Env) (err : String) :
    ∀ m n k, m < n
      → (∀ j, k ≤ j → j < k + m → iterResult env j = Except.ok ())
      → iterResult env (k + m) = Except.error err
      → (runIters env k n).2 = Except.error err
        ∧ (runIters env k n).1.countP isPrint = m + 1
        ∧ (runIters env k n).1.countP isSerialize = m + 1 := by
  intro m
  induction m with
  | zero =>
    intro n k hn hpre hf
    obtain ⟨n', rfl⟩ : ∃ n', n = n' + 1 := ⟨n - 1, by omega⟩
    have hf0 : iterResult env k = Except.error err := by simpa using hf
    simp [runIters, hf0, (iterActions_counts env k).1, (iterActions_counts env k).2.1]
  | succ m ih =>
    intro n k hn hpre hf
    obtain ⟨n', rfl⟩ : ∃ n', n = n' + 1 := ⟨n - 1, by omega⟩
    have h0 : iterResult env k = Except.ok () := hpre k (le_refl k) (by omega)
    have hrec := ih n' (k + 1) (by omega)
      (fun j hj1 hj2 => hpre j (by omega) (by omega))
      (by rw [show k + 1 + m = k + (m + 1) by omega]; exact hf)
    refine ⟨?_, ?_, ?_⟩
    · simp [runIters, h0, hrec.1]
    · simp [runIters, h0, List.countP_append, List.countP_cons,
        (iterActions_counts env k).1, hrec.2.1, isPrint] <;> omega
    · simp [runIters, h0, List.countP_append, List.countP_cons,
        (iterActions_counts env k).2.1, hrec.2.2, isSerialize] <;> omega

theorem runIters_last_sleep (env : Env) (h : ∀ j, iterResult env j = Except.ok ()) :
    ∀ n k, 1 ≤ n →
      (runIters env k n).1.reverse.head? = some (Action.sleep (sleepValAt env (k + n - 1))) := by
  intro n
  induction n with
  | zero => intro k h1; exact absurd h1 (by omega)
  | succ n ih =>
    intro k _
    have hk := h k
    by_cases hn : n = 0
    · subst hn
      simp [runIters, hk, List.reverse_append]
    · have h1 : 1 ≤ n := by omega
      have hrec := ih (k + 1) h1
      obtain ⟨t, ht⟩ : ∃ t, (runIters env (k + 1) n).1.reverse
          = Action.sleep (sleepValAt env (k + n)) :: t := by
        cases hr : (runIters env (k + 1) n).1.reverse with
        | nil => rw [hr] at hrec; simp at hrec
        | cons a t =>
          rw [hr] at hrec
          simp at hrec
          exact ⟨t, by rw [hrec]⟩
      rw [show k + (n + 1) - 1 = k + n by omega]
      simp [runIters, hk, List.reverse_append, ht]

/-! ## Loop claim theorems -/

/-- Claim C3: absent any failure, the loop makes exactly `loopBound = 10000`
iterations — `10000` generated events (one `print` per event) and `10000`
produce attempts — with the bound a literal constant of the script. -/
theorem loop_runs_exactly_10000 (env : Env)
    (h : ∀ j, iterResult env j = Except.ok ()) :
    loopBound = 10000
    ∧ (runScript env).2 = Except.ok ()
    ∧ (runScript env).1.countP isPrint = loopBound
    ∧ (runScript env).1.countP isProduce = loopBound := by
  have hro := runIters_ok env h loopBound 0
  refine ⟨rfl, hro.1, ?_, ?_⟩
  · show (Action.acquire :: (runIters env 0 loopBound).1 ++ [Action.release]).countP isPrint
        = loopBound
    simp [List.countP_cons, List.countP_append, hro.2.1, isPrint]
  · show (Action.acquire :: (runIters env 0 loopBound).1 ++ [Action.release]).countP isProduce
        = loopBound
    simp [List.countP_cons, List.countP_append, hro.2.2.1, isProduce]

/-- Witness for C3: the all-succeeding concrete environment. -/
theorem loop_runs_exactly_10000_witness :
    loopBound = 10000
    ∧ (runScript envOk).2 = Except.ok ()
    ∧ (runScript envOk).1.countP isPrint = loopBound
    ∧ (runScript envOk).1.countP isProduce = loopBound :=
  loop_runs_exactly_10000 envOk (fun _ => rfl)

/-- Claim C5: if serialization or the produce call fails at some iteration
`k` (all earlier iterations succeeding), the same error is the run's
outcome — propagated unmodified — and the loop stops at once: exactly
`k + 1` events were generated and exactly `k + 1` serialize calls were made
(no retry, no further events). -/
theorem failure_fail_fast (env : Env) (k : Nat) (err : String)
    (hk : k < loopBound)
    (hpre : ∀ j, j < k → iterResult env j = Except.ok ())
    (hfail : iterResult env k = Except.error err) :
    (runScript env).2 = Except.error err
    ∧ (runScript env).1.countP isPrint = k + 1
    ∧ (runScript env).1.countP isSerialize = k + 1 := by
  have h := runIters_fail env err k loopBound 0 hk
    (fun j hj1 hj2 => hpre j (by omega)) (by simpa using hfail)
  refine ⟨h.1, ?_, ?_⟩
  · show (Action.acquire :: (runIters env 0 loopBound).1 ++ [Action.release]).countP isPrint
        = k + 1
    simp [List.countP_cons, List.countP_append, h.2.1, isPrint]
  · show (Action.acquire :: (runIters env 0 loopBound).1 ++ [Action.release]).countP isSerialize
        = k + 1
    simp [List.countP_cons, List.countP_append, h.2.2, isSerialize]

/-- Witness for C5: the environment whose produce call fails with `"boom"`
already at iteration `0`. -/
theorem failure_fail_fast_witness :
    (runScript envFail).2 = Except.error "boom"
    ∧ (runScript envFail).1.countP isPrint = 0 + 1
    ∧ (runScript envFail).1.countP isSerialize = 0 + 1 :=
  failure_fail_fast envFail 0 "boom" (by decide)
    (fun j hj => absurd hj (by omega)) rfl

/-- Claim C6: every run — failing or not — acquires the producer exactly
once, as its first action before the loop, and releases it as its very last
action. -/
theorem producer_scoped (env : Env) :
    (runScript env).1.countP isAcquire = 1
    ∧ (runScript env).1.head? = some Action.acquire
    ∧ (runScript env).1.getLast? = some Action.release := by
  refine ⟨?_, rfl, ?_⟩
  · show (Action.acquire :: (runIters env 0 loopBound).1 ++ [Action.release]).countP isAcquire
        = 1
    simp [List.countP_cons, List.countP_append, runIters_no_acquire env loopBound 0, isAcquire]
  · show (Action.acquire :: (runIters env 0 loopBound).1 ++ [Action.release]).getLast?
        = some Action.release
    exact List.getLast?_concat _

/-- Claim C8 (amended): the loop suspends for a random duration in `[0, 1)`
after every iteration's publish attempt — including after the final one:
a run with no failure ends with the release preceded immediately by a
`sleep`, and performs `loopBound` suspensions in total. -/
theorem sleep_after_every_iteration (env : Env)
    (h : ∀ j, iterResult env j = Except.ok ()) (k : Nat) :
    (0 ≤ sleepValAt env k ∧ sleepValAt env k < 1)
    ∧ (runScript env).1.countP isBodySleep = loopBound
    ∧ (runScript env).1.reverse.head? = some Action.release
    ∧ (runScript env).1.reverse.tail.head?
        = some (Action.sleep (sleepValAt env (loopBound - 1))) := by
  have hro := runIters_ok env h loopBound 0
  have hls := runIters_last_sleep env h loopBound 0 (by norm_num [loopBound])
  obtain ⟨t, ht⟩ : ∃ t, (runIters env 0 loopBound).1.reverse
      = Action.sleep (sleepValAt env (loopBound - 1)) :: t := by
    cases hr : (runIters env 0 loopBound).1.reverse with
    | nil => rw [hr] at hls; simp at hls
    | cons a t =>
      rw [hr] at hls
      simp at hls
      exact ⟨t, by rw [hls]⟩
  refine ⟨⟨?_, ?_⟩, ?_, ?_, ?_⟩
  · exact div_nonneg (by positivity) (by positivity)
  · unfold sleepValAt
    rw [div_lt_one (by positivity)]
    exact_mod_cast Nat.mod_lt _ (by norm_num)
  · show (Action.acquire :: (runIters env 0 loopBound).1 ++ [Action.release]).countP isBodySleep
        = loopBound
    simp [List.countP_cons, List.countP_append, hro.2.2.2, isBodySleep]
  · show (Action.acquire :: (runIters env 0 loopBound).1 ++ [Action.release]).reverse.head?
        = some Action.release
    simp [List.reverse_append]
  · show (Action.acquire :: (runIters env 0 loopBound).1 ++ [Action.release]).reverse.tail.head?
        = some (Action.sleep (sleepValAt env (loopBound - 1)))
    simp [List.reverse_append, ht]

/-- Witness for C8 (amended): the all-succeeding concrete environment. -/
theorem sleep_after_every_iteration_witness :
    (0 ≤ sleepValAt envOk 0 ∧ sleepValAt envOk 0 < 1)
    ∧ (runScript envOk).1.countP isBodySleep = loopBound
    ∧ (runScript envOk).1.reverse.head? = some Action.release
    ∧ (runScript envOk).1.reverse.tail.head?
        = some (Action.sleep (sleepValAt envOk (loopBound - 1))) :=
  sleep_after_every_iteration envOk (fun _ => rfl) 0

/-- Counterexample to C8 as stated: in a failure-free run the suspension is
not confined to the space between iterations — a `sleep` occurs after the
final iteration's produce call (right before the loop exits), so the trace
violates `noSleepAfterLastProduce`. -/
theorem sleep_not_only_between_iterations_cex :
    noSleepAfterLastProduce (runScript envOk).1 = false := by
  have hls := runIters_last_sleep envOk (fun _ => rfl) loopBound 0 (by norm_num [loopBound])
  obtain ⟨t, ht⟩ : ∃ t, (runIters envOk 0 loopBound).1.reverse
      = Action.sleep (sleepValAt envOk (loopBound - 1)) :: t := by
    cases hr : (runIters envOk 0 loopBound).1.reverse with
    | nil => rw [hr] at hls; simp at hls
    | cons a t =>
      rw [hr] at hls
      simp at hls
      exact ⟨t, by rw [hls]⟩
  have hrev : (runScript envOk).1.reverse
      = Action.release :: Action.sleep (sleepValAt envOk (loopBound - 1))
          :: (t ++ [Action.acquire]) := by
    show (Action.acquire :: (runIters envOk 0 loopBound).1 ++ [Action.release]).reverse = _
    simp [ht]
  unfold noSleepAfterLastProduce
  rw [hrev]
  rfl

/-- Claim C9: whenever iteration `k`'s serialize call succeeds with envelope
`s`, the iteration's actions are exactly: the print, the serialize call
keyed by the event's `account_id`, and the produce call keyed by `s.key` —
the serializer's output for that same key (and the serialize outcome is by
definition the external serializer applied to the event's `account_id`). -/
theorem produce_keyed_by_account_id (env : Env) (k : Nat) (s : Serialized)
    (h : serializeAt env k = Except.ok s) :
    iterActions env k =
      [Action.printEvt (eventAt env k),
       Action.serializeCall (eventAt env k).account_id (eventAt env k) (headersAt env k),
       Action.produceCall topicName s.headers s.key s.value]
    ∧ serializeAt env k
        = env.serialize (eventAt env k).account_id (eventAt env k) (headersAt env k) := by
  refine ⟨?_, rfl⟩
  simp [iterActions, h]

/-- Witness for C9: the concrete all-succeeding environment at iteration 0. -/
theorem produce_keyed_by_account_id_witness :
    iterActions envOk 0 =
      [Action.printEvt (eventAt envOk 0),
       Action.serializeCall (eventAt envOk 0).account_id (eventAt envOk 0) (headersAt envOk 0),
       Action.produceCall topicName serializedTriv.headers serializedTriv.key serializedTriv.value]
    ∧ serializeAt envOk 0
        = envOk.serialize (eventAt envOk 0).account_id (eventAt envOk 0) (headersAt envOk 0) :=
  produce_keyed_by_account_id envOk 0 serializedTriv rfl

end BankProducer
